import Mathlib

/-!
Shallow embedding of the Kissy episode-download pipeline:
the retrying HTTP fetcher and connection pool (`kissy/utils.py`),
the mirror resolvers and the download executor (`kissy/downloader.py`),
and the mirror-selection orchestrator (`kissy/main.py`).

External collaborators (the network, the HTML scraper, the regex engine)
are passed in as oracle functions; the control flow of each embedded
function mirrors the Python source line by line.
-/

namespace Kissy

/-! ## Python string helpers -/

/-- One pass of Python `str.replace(old, new)` over a character list:
replaces non-overlapping occurrences of `old` left to right.  The first
`Nat` argument is fuel; any fuel at least the length of the subject list
makes the recursion run to completion (the callers pass exactly that). -/
def pyReplaceAux (old new : List Char) : Nat → List Char → List Char
  | _, [] => []
  | 0, s => s
  | fuel + 1, c :: rest =>
    if old.isPrefixOf (c :: rest) then
      new ++ pyReplaceAux old new fuel ((c :: rest).drop old.length)
    else
      c :: pyReplaceAux old new fuel rest

/-- Python `s.replace(old, new)`.  The empty-pattern case (where Python
interleaves `new` between every character) is not exercised by any call
site in this repository, so it is mapped to the identity. -/
def pyReplace (s old new : String) : String :=
  if old.data.isEmpty then s
  else ⟨pyReplaceAux old.data new.data s.data.length s.data⟩

/-! ## Retrying fetcher — `utils.retryable_get_request`

The network is an oracle `Nat → FetchOutcome` giving the outcome of the
i-th GET attempt.  The embedding returns the trace of observable events
(GET attempts and the fixed `asyncio.sleep(1)` backoffs) together with
the Python result: `Except.error ()` models the re-raised
`asyncio.TimeoutError`, `Except.ok none` models falling off the end of
the `for` loop (Python returns `None`), and `Except.ok (some (b, s))`
models `return page, status`. -/

/-- Outcome of a single GET attempt. -/
inductive FetchOutcome
  | timeout
  | response (body : String) (status : Nat)
deriving DecidableEq

/-- An observable event of the retrying fetcher: the i-th GET attempt,
or the fixed one-second sleep between attempts. -/
inductive Ev
  | get (i : Nat)
  | sleep1
deriving DecidableEq

def isGetEv : Ev → Bool
  | .get _ => true
  | .sleep1 => false

def isSleepEv : Ev → Bool
  | .get _ => false
  | .sleep1 => true

/-- The loop body of `retryable_get_request`: `k` iterations of
`for i in range(retry_count)` remain, `i` is the current index and
`last = retry_count - 1` (the index at which a timeout is re-raised). -/
def retryAux (oracle : Nat → FetchOutcome) (last : Nat) :
    Nat → Nat → List Ev × Except Unit (Option (String × Nat))
  | 0, _ => ([], .ok none)
  | k + 1, i =>
    match oracle i with
    | .response b s => ([.get i], .ok (some (b, s)))
    | .timeout =>
      if i == last then ([.get i], .error ())
      else
        let r := retryAux oracle last k (i + 1)
        (.get i :: .sleep1 :: r.1, r.2)

/-- `utils.retryable_get_request` (the session, timeout value and extra
request options do not affect the control flow and are folded into the
oracle). -/
def retryable_get_request (oracle : Nat → FetchOutcome) (retry_count : Nat) :
    List Ev × Except Unit (Option (String × Nat)) :=
  retryAux oracle (retry_count - 1) retry_count 0

/-- The event trace of `k` attempts that all time out, starting at
attempt index `i`: a sleep follows every attempt except the last. -/
def timeoutTrace : Nat → Nat → List Ev
  | _, 0 => []
  | i, 1 => [.get i]
  | i, k + 2 => .get i :: .sleep1 :: timeoutTrace (i + 1) (k + 1)

/-- The event trace of `k` timed-out attempts starting at index `i`
followed by one successful attempt. -/
def successTrace : Nat → Nat → List Ev
  | i, 0 => [.get i]
  | i, k + 1 => .get i :: .sleep1 :: successTrace (i + 1) k

/-! ## Connection pool — `utils.get_connection`

`asyncio.Queue` is modelled as a FIFO list of tokens.  `get_connection`
takes a token from the front (`await queue.get()`), runs the body, and
the `finally` block puts the token back (`await queue.put(item)`),
whether the body returned normally or raised.  An empty pool makes
`queue.get()` block forever; the sequential model returns `none` there. -/

def get_connection {α ε σ : Type} (pool : List Nat)
    (body : Nat → σ → Except ε α × σ) (s : σ) :
    Option (Except ε α × σ × List Nat) :=
  match pool with
  | [] => none
  | t :: rest =>
    let r := body t s
    some (r.1, r.2, rest ++ [t])

/-- Sequential composition of scoped acquisitions: each body runs inside
its own `get_connection` scope, threading the state and the pool. -/
def run_scopes {ε σ : Type} :
    List (Nat → σ → Except ε Unit × σ) → List Nat → σ → Option (σ × List Nat)
  | [], pool, s => some (s, pool)
  | b :: bs, pool, s =>
    match get_connection pool b s with
    | none => none
    | some (_, s', pool') => run_scopes bs pool' s'

/-! ## Video quality constants — `downloader.VideoQuality` -/

namespace VideoQuality

def P360 : String := "360p"

def P480 : String := "480p"

def P720 : String := "720p"

def P1080 : String := "1080p"

def P_HIGHEST : String := "highest"

def P_LOWEST : String := "lowest"

end VideoQuality

/-! ## Mirror C resolver — `downloader.get_mp4upload_link`

The retrying fetch is an oracle `String → Except Unit (String × Nat)`
(timeout after exhausted retries, or page body and status); the
BeautifulSoup lookup `soup.find_all(class_='infoname')[1].next_sibling.text`
is an oracle `String → String` from the page body.  The embedding also
returns the list of links actually fetched, so that "performs no network
fetch" is an observable fact. -/

/-- Failure modes of `get_mp4upload_link`: the re-raised
`asyncio.TimeoutError` from the retrying fetch, the `RuntimeError` on a
non-200 status, and the `NoQualityFound` signal. -/
inductive MPErr
  | timeoutErr
  | runtimeErr
  | noQualityFound
deriving DecidableEq

def get_mp4upload_link (fetchRes : String → Except Unit (String × Nat))
    (infonameSibling : String → String) (link quality : String) :
    Except MPErr String × List String :=
  let link := pyReplace link "embed-" ""
  if quality = VideoQuality.P_LOWEST ∨ quality = VideoQuality.P_HIGHEST then
    (.ok link, [])
  else
    match fetchRes link with
    | .error () => (.error .timeoutErr, [link])
    | .ok (page, status) =>
      if status ≠ 200 then (.error .runtimeErr, [link])
      else
        let resolution := infonameSibling page
        let resolution := ((resolution.splitOn "x ").getLastD "") ++ "p"
        if quality ≠ resolution then (.error .noQualityFound, [link])
        else (.ok link, [link])

/-! ## Filesystem model and download executor — `downloader.download_episode`

The filesystem is an association list from paths to file contents; the
first binding for a path is its current content.  `os.remove` errors on
a missing path (`FileNotFoundError`), which `download_episode`'s cleanup
catches and ignores.  The HTTP response for the direct link is a record:
status, the parsed `content-length` header (`none` when the header is
missing, making `int(None)` raise), the chunks delivered by the stream
before it either finishes or errors, and whether it errors. -/

abbrev Fs := List (String × String)

/-- `os.path.isfile` / file-content lookup: the first binding wins. -/
def fsGet : Fs → String → Option String
  | [], _ => none
  | (k, v) :: rest, k' => if k = k' then some v else fsGet rest k'

/-- Remove every binding for path `k`. -/
def fsDel : Fs → String → Fs
  | [], _ => []
  | p :: rest, k => if p.1 = k then fsDel rest k else p :: fsDel rest k

/-- Write `v` to path `k` (Python `open(k, 'wb')` followed by the chunk
writes): creates the file or truncates and overwrites an existing one. -/
def fsSet (fs : Fs) (k v : String) : Fs :=
  (k, v) :: fsDel fs k

/-- `os.remove`: errors with `FileNotFoundError` when the path is absent. -/
def os_remove (fs : Fs) (k : String) : Except Unit Fs :=
  if (fsGet fs k).isSome then .ok (fsDel fs k)
  else .error ()

/-- Failure modes inside `download_episode`'s `try` block:
`FileExistsError`, the `RuntimeError` on non-200 status, the `TypeError`
from `int(None)` when `content-length` is missing, and an error raised
by the response stream mid-download. -/
inductive DLErr
  | fileExists
  | badStatus
  | badHeader
  | streamError
deriving DecidableEq

/-- The HTTP response observed when requesting the direct media link. -/
structure DLResp where
  status : Nat
  contentLength : Option Nat
  chunks : List String
  streamErr : Bool

/-- The body of `download_episode`'s `async with get_connection(pool)`
scope: check `os.path.isfile(f'{path}/{name}.mp4')`, check the status,
parse `content-length`, then stream the chunks into `f'{path}/{name}'`
(note: the existence check and the write use different paths, exactly as
in the source). -/
def download_body (resp : DLResp) (name path : String) (fs : Fs) :
    Except DLErr Unit × Fs :=
  let file_target := path ++ "/" ++ name ++ ".mp4"
  if (fsGet fs file_target).isSome then (.error .fileExists, fs)
  else if resp.status ≠ 200 then (.error .badStatus, fs)
  else
    match resp.contentLength with
    | none => (.error .badHeader, fs)
    | some _ =>
      let fs := fsSet fs (path ++ "/" ++ name) (String.join resp.chunks)
      if resp.streamErr then (.error .streamError, fs) else (.ok (), fs)

/-- `downloader.download_episode`: run the body inside a scoped pool
acquisition; on any exception, log, `os.remove(f'{path}/{name}')`
ignoring `FileNotFoundError`, and return `False`; otherwise return
`True`.  `none` models blocking forever on an empty pool. -/
def download_episode (resp : DLResp) (name path : String)
    (pool : List Nat) (fs : Fs) : Option (Bool × Fs × List Nat) :=
  match get_connection pool (fun _ fs => download_body resp name path fs) fs with
  | none => none
  | some (r, fs', pool') =>
    match r with
    | .ok () => some (true, fs', pool')
    | .error _ =>
      match os_remove fs' (path ++ "/" ++ name) with
      | .ok fs'' => some (false, fs'', pool')
      | .error () => some (false, fs', pool')

/-! ## Mirror-selection orchestrator — `main.get_download_link`

The annotated watch-page fetch (the retrying fetcher applied to
`link + "&s=" + server` with redirects disabled) is an oracle from the
annotated URL; `re.findall(VIDEO_LINK_PATTERN, page)` is an oracle from
the page body to the list of captured strings.  Each server's resolver
is a function `String → String → Except ResolveErr String`, the
per-mirror embedding with its own oracles already applied. -/

/-- Modelled from the spec: the repository's `errors.py` (the
`NoQualityFound` and `NoServerFound` exception classes) is not under
`src/`; following the spec they are distinct tagged error signals,
distinguished from generic transport/status errors.  `indexError` is the
`IndexError` raised by `[0]` on an empty match list, `runtimeError` the
resolvers' `RuntimeError`, `timeoutError` the propagated timeout. -/
inductive ResolveErr
  | noQualityFound
  | noServerFound
  | indexError
  | runtimeError
  | timeoutError
deriving DecidableEq

structure DownloadLink where
  name : String
  link : String
deriving DecidableEq

def get_download_link (fetch : String → Except ResolveErr (String × Nat))
    (findall : String → List String)
    (servers : List (String × (String → String → Except ResolveErr String)))
    (ep_name link quality : String) : Except ResolveErr DownloadLink :=
  match servers with
  | [] => .error .noServerFound
  | (server, method) :: rest =>
    match fetch (link ++ "&s=" ++ server) with
    | .error e => .error e
    | .ok (page, status) =>
      if status == 302 then
        get_download_link fetch findall rest ep_name link quality
      else
        match findall page with
        | [] => .error .indexError
        | m :: _ =>
          let video_link := m.dropRight 1
          match method video_link quality with
          | .ok url => .ok ⟨ep_name, url⟩
          | .error e => .error e

end Kissy

namespace Kissy

/-! ## Smoke tests for the embedding -/

example : pyReplace "ab-embed-cd-embed-" "embed-" "" = "ab-cd-" := by decide

example :
    retryable_get_request (fun _ => .timeout) 3 =
      ([.get 0, .sleep1, .get 1, .sleep1, .get 2], .error ()) := rfl

example : retryable_get_request (fun _ => .timeout) 0 = ([], .ok none) := rfl

example :
    run_scopes [fun _ s => (Except.error (), s), fun _ s => (Except.ok (), s)]
      [0, 1] (0 : Nat) = some (0, [0, 1]) := by decide

/-! ## Filesystem lemmas -/

theorem fsGet_fsDel_self (fs : Fs) (k : String) :
    fsGet (fsDel fs k) k = none := by
  induction fs with
  | nil => rfl
  | cons p rest ih =>
    by_cases h : p.1 = k
    · simp [fsDel, h, ih]
    · simp [fsDel, h, fsGet, ih]

theorem fsGet_fsDel_ne (fs : Fs) (k k' : String) (h : k' ≠ k) :
    fsGet (fsDel fs k) k' = fsGet fs k' := by
  induction fs with
  | nil => rfl
  | cons p rest ih =>
    by_cases hp : p.1 = k
    · have hkk : ¬ k = k' := fun e => h e.symm
      simp [fsDel, hp, fsGet, hkk, ih]
    · by_cases hp' : p.1 = k'
      · simp [fsDel, hp, fsGet, hp', h]
      · simp [fsDel, hp, fsGet, hp', ih]

theorem fsGet_fsSet_self (fs : Fs) (k v : String) :
    fsGet (fsSet fs k v) k = some v := by
  simp [fsSet, fsGet]

theorem fsGet_fsSet_ne (fs : Fs) (k k' v : String) (h : k' ≠ k) :
    fsGet (fsSet fs k v) k' = fsGet fs k' := by
  have hk : ¬ k = k' := fun hk => h hk.symm
  simp [fsSet, fsGet, hk, fsGet_fsDel_ne fs k k' h]

theorem string_append_ne_self (s t : String) (h : t.length ≠ 0) : s ≠ s ++ t := by
  intro heq
  have hl := congrArg String.length heq
  rw [String.length_append] at hl
  omega

/-! ## Retrying-fetcher lemmas -/

theorem retryAux_step_response (oracle : Nat → FetchOutcome) (last k i : Nat)
    (b : String) (s : Nat) (hresp : oracle i = .response b s) :
    retryAux oracle last (k + 1) i = ([.get i], .ok (some (b, s))) := by
  simp [retryAux, hresp]

theorem retryAux_last_timeout (oracle : Nat → FetchOutcome) (last k i : Nat)
    (hto : oracle i = .timeout) (hi : (i == last) = true) :
    retryAux oracle last (k + 1) i = ([.get i], .error ()) := by
  simp [retryAux, hto, hi]

theorem retryAux_step_timeout (oracle : Nat → FetchOutcome) (last k i : Nat)
    (hto : oracle i = .timeout) (hi : (i == last) = false) :
    retryAux oracle last (k + 1) i =
      (Ev.get i :: Ev.sleep1 :: (retryAux oracle last k (i + 1)).1,
       (retryAux oracle last k (i + 1)).2) := by
  simp [retryAux, hto, hi]

theorem retryAux_all_timeout (oracle : Nat → FetchOutcome) (last : Nat) :
    ∀ k i, 1 ≤ k → i + k = last + 1 → (∀ m, m ≤ last → oracle m = .timeout) →
      retryAux oracle last k i = (timeoutTrace i k, .error ()) := by
  intro k
  induction k with
  | zero => intro i h1 _ _; omega
  | succ n ih =>
    intro i _ hinv htos
    have hto : oracle i = .timeout := htos i (by omega)
    match n, hinv with
    | 0, hinv =>
      have hi : (i == last) = true := by
        have : i = last := by omega
        simp [this]
      rw [retryAux_last_timeout oracle last 0 i hto hi]
      rfl
    | m + 1, hinv =>
      have hi : (i == last) = false := by
        simp only [beq_eq_false_iff_ne, ne_eq]
        omega
      have hrec := ih (i + 1) (by omega) (by omega) htos
      rw [retryAux_step_timeout oracle last (m + 1) i hto hi, hrec]
      rfl

theorem retryAux_success (oracle : Nat → FetchOutcome) (last : Nat) (b : String) (s : Nat) :
    ∀ j k i, j < k → i + k = last + 1 →
      (∀ m, i ≤ m → m < i + j → oracle m = .timeout) →
      oracle (i + j) = .response b s →
      retryAux oracle last k i = (successTrace i j, .ok (some (b, s))) := by
  intro j
  induction j with
  | zero =>
    intro k i hj _ _ hresp
    match k, hj with
    | n + 1, _ =>
      simp only [Nat.add_zero] at hresp
      rw [retryAux_step_response oracle last n i b s hresp]
      rfl
  | succ n ih =>
    intro k i hj hinv htos hresp
    match k, hj with
    | m + 1, hj =>
      have hto : oracle i = .timeout := htos i (by omega) (by omega)
      have hi : (i == last) = false := by
        simp only [beq_eq_false_iff_ne, ne_eq]
        omega
      have hrec := ih m (i + 1) (by omega) (by omega)
        (fun x hx1 hx2 => htos x (by omega) (by omega))
        (by have h1 : i + 1 + n = i + (n + 1) := by omega
            rw [h1]; exact hresp)
      rw [retryAux_step_timeout oracle last m i hto hi, hrec]
      rfl

theorem timeoutTrace_get_count :
    ∀ k i, (timeoutTrace i k).countP isGetEv = k := by
  intro k
  induction k using Nat.strong_induction_on with
  | _ k ih =>
    match k with
    | 0 => intro i; simp [timeoutTrace]
    | 1 => intro i; simp [timeoutTrace, List.countP_cons, isGetEv]
    | m + 2 =>
      intro i
      have := ih (m + 1) (by omega) (i + 1)
      simp [timeoutTrace, List.countP_cons, isGetEv, this]

theorem timeoutTrace_sleep_count :
    ∀ k i, (timeoutTrace i k).countP isSleepEv = k - 1 := by
  intro k
  induction k using Nat.strong_induction_on with
  | _ k ih =>
    match k with
    | 0 => intro i; simp [timeoutTrace]
    | 1 => intro i; simp [timeoutTrace, List.countP_cons, isSleepEv]
    | m + 2 =>
      intro i
      have := ih (m + 1) (by omega) (i + 1)
      simp [timeoutTrace, List.countP_cons, isSleepEv, this]

/-! ## Pool lemmas -/

theorem run_scopes_length {ε σ : Type} :
    ∀ (bodies : List (Nat → σ → Except ε Unit × σ)) (pool : List Nat) (s s' : σ)
      (pool' : List Nat), run_scopes bodies pool s = some (s', pool') →
      pool'.length = pool.length := by
  intro bodies
  induction bodies with
  | nil =>
    intro pool s s' pool' h
    simp only [run_scopes, Option.some.injEq, Prod.mk.injEq] at h
    rw [h.2]
  | cons b bs ih =>
    intro pool s s' pool' h
    match pool with
    | [] => simp [run_scopes, get_connection] at h
    | t :: rest =>
      simp only [run_scopes, get_connection] at h
      have := ih (rest ++ [t]) (b t s).2 s' pool' h
      simp only [List.length_append, List.length_cons, List.length_nil] at this ⊢
      omega

/-! ## Download-executor lemmas -/

theorem download_episode_eq (resp : DLResp) (name path : String) (t : Nat)
    (rest : List Nat) (fs : Fs) :
    download_episode resp name path (t :: rest) fs =
      match (download_body resp name path fs).1 with
      | .ok () => some (true, (download_body resp name path fs).2, rest ++ [t])
      | .error _ =>
        match os_remove (download_body resp name path fs).2 (path ++ "/" ++ name) with
        | .ok fs'' => some (false, fs'', rest ++ [t])
        | .error () => some (false, (download_body resp name path fs).2, rest ++ [t]) := by
  rfl

/-! ## Orchestrator lemmas -/

theorem get_download_link_skip_302_servers
    (fetch : String → Except ResolveErr (String × Nat))
    (findall : String → List String) (ep_name link quality : String) :
    ∀ (pre rest : List (String × (String → String → Except ResolveErr String))),
      (∀ s ∈ pre, ∃ pg, fetch (link ++ "&s=" ++ s.1) = Except.ok (pg, 302)) →
      get_download_link fetch findall (pre ++ rest) ep_name link quality =
        get_download_link fetch findall rest ep_name link quality := by
  intro pre
  induction pre with
  | nil => intro rest _; rfl
  | cons hd tl ih =>
    intro rest hpre
    obtain ⟨pg, hpg⟩ := hpre hd (List.mem_cons_self hd tl)
    have htl := fun s hs => hpre s (List.mem_cons_of_mem hd hs)
    match hd with
    | (srv, method) =>
      simp only [List.cons_append, get_download_link, hpg]
      simpa using ih rest htl

/-! ## Claim theorems -/

/-- Claim C9: called with `retry_count = 0`, the retrying fetcher performs
no GET attempt (its event trace is empty), raises nothing, and returns
`None` (modelled `Except.ok none`) rather than a `(body, status)` pair. -/
theorem C9_retry_zero_returns_none (oracle : Nat → FetchOutcome) :
    retryable_get_request oracle 0 = ([], .ok none) := rfl

/-- Claim C3: for every retry bound `R ≥ 1`, if every GET attempt times out
the fetcher performs exactly `R` attempts with the fixed one-second sleep
between consecutive attempts (`R` GET events, `R - 1` sleep events) and then
propagates the timeout; and a non-timeout response on any reachable attempt
is returned immediately as `(body, status)`, whatever its status code. -/
theorem C3_retry_semantics (oracle : Nat → FetchOutcome) (R : Nat) (hR : 1 ≤ R) :
    ((∀ i, i < R → oracle i = .timeout) →
      retryable_get_request oracle R = (timeoutTrace 0 R, .error ()) ∧
      (timeoutTrace 0 R).countP isGetEv = R ∧
      (timeoutTrace 0 R).countP isSleepEv = R - 1) ∧
    (∀ j b s, j < R → (∀ i, i < j → oracle i = .timeout) →
      oracle j = .response b s →
      retryable_get_request oracle R = (successTrace 0 j, .ok (some (b, s)))) := by
  constructor
  · intro hto
    refine ⟨?_, timeoutTrace_get_count R 0, timeoutTrace_sleep_count R 0⟩
    unfold retryable_get_request
    exact retryAux_all_timeout oracle (R - 1) R 0 hR (by omega)
      (fun m hm => hto m (by omega))
  · intro j b s hj htos hresp
    unfold retryable_get_request
    exact retryAux_success oracle (R - 1) b s j R 0 hj (by omega)
      (fun m _ hm => htos m (by omega)) (by simpa using hresp)

theorem C3_retry_semantics_witness :
    retryable_get_request (fun _ => FetchOutcome.timeout) 3 =
      (timeoutTrace 0 3, Except.error ()) ∧
    (timeoutTrace 0 3).countP isGetEv = 3 ∧
    (timeoutTrace 0 3).countP isSleepEv = 2 :=
  (C3_retry_semantics (fun _ => FetchOutcome.timeout) 3 (by decide)).1
    (fun _ _ => rfl)

/-- Claim C4 as stated is false: with the `highest` sentinel, Mirror C's
resolver does not return the input link unchanged.  At this embed-form
link it returns the rewritten link with `embed-` stripped, which differs
from the input. -/
theorem C4_counterexample :
    (get_mp4upload_link (fun _ => .error ()) (fun _ => "")
        "https://www.mp4upload.com/embed-jby2ms8ipq5d.html" "highest") =
      (Except.ok "https://www.mp4upload.com/jby2ms8ipq5d.html", []) ∧
    "https://www.mp4upload.com/jby2ms8ipq5d.html" ≠
      "https://www.mp4upload.com/embed-jby2ms8ipq5d.html" :=
  ⟨rfl, by decide⟩

/-- Claim C4 (amended): with either quality sentinel (`highest` or
`lowest`), Mirror C's resolver returns the rewritten link — the input with
every `embed-` occurrence removed, so a link without `embed-` is returned
unchanged — and performs no network fetch (its fetched-links trace is
empty). -/
theorem C4_sentinel_no_fetch (fetchRes : String → Except Unit (String × Nat))
    (infonameSibling : String → String) (link quality : String)
    (h : quality = VideoQuality.P_HIGHEST ∨ quality = VideoQuality.P_LOWEST) :
    get_mp4upload_link fetchRes infonameSibling link quality =
      (.ok (pyReplace link "embed-" ""), []) := by
  rcases h with h | h <;> subst h <;> rfl

theorem C4_sentinel_no_fetch_witness :
    get_mp4upload_link (fun _ => Except.error ()) (fun _ => "")
        "https://www.mp4upload.com/embed-jby2ms8ipq5d.html" "lowest" =
      (Except.ok (pyReplace "https://www.mp4upload.com/embed-jby2ms8ipq5d.html"
        "embed-" ""), []) :=
  C4_sentinel_no_fetch (fun _ => Except.error ()) (fun _ => "")
    "https://www.mp4upload.com/embed-jby2ms8ipq5d.html" "lowest" (Or.inr rfl)

/-- Claim C6: a token taken by the scoped acquisition `get_connection` is
returned to the pool on every exit path — with a token available, the
scope always yields a result (never deadlocks on the sequential model)
and leaves a pool that is a permutation of the original, whether the body
returned normally or raised — and any sequence of scoped acquisitions
leaves the pool at its seeded size. -/
theorem C6_token_always_returned {ε σ : Type} (pool : List Nat) (h : pool ≠ []) :
    (∀ (body : Nat → σ → Except ε Unit × σ) (s : σ),
      ∃ r s' pool', get_connection pool body s = some (r, s', pool') ∧
        pool'.Perm pool) ∧
    (∀ (bodies : List (Nat → σ → Except ε Unit × σ)) (s s' : σ)
      (pool' : List Nat), run_scopes bodies pool s = some (s', pool') →
      pool'.length = pool.length) := by
  constructor
  · intro body s
    match pool, h with
    | t :: rest, _ =>
      exact ⟨(body t s).1, (body t s).2, rest ++ [t], rfl,
        List.perm_append_singleton t rest⟩
  · intro bodies s s' pool' hrun
    exact run_scopes_length bodies pool s s' pool' hrun

theorem C6_token_always_returned_witness :
    ∃ r s' pool',
      get_connection [7]
          (fun (_ : Nat) (s : Nat) => ((Except.error () : Except Unit Unit), s)) 0 =
        some (r, s', pool') ∧ pool'.Perm [7] :=
  (@C6_token_always_returned Unit Nat [7] (by decide)).1
    (fun _ s => (Except.error (), s)) 0

/-- Claim C2: when the first server not skipped by a redirect resolves with
the quality-not-found signal, the orchestrator does not try any of the
remaining servers: whatever servers follow in the registry, the episode
fails immediately with `noQualityFound`. -/
theorem C2_quality_not_found_terminal
    (fetch : String → Except ResolveErr (String × Nat))
    (findall : String → List String)
    (pre post : List (String × (String → String → Except ResolveErr String)))
    (srv : String) (method : String → String → Except ResolveErr String)
    (ep_name link quality page : String) (status : Nat) (m : String)
    (ms : List String)
    (hpre : ∀ s ∈ pre, ∃ pg, fetch (link ++ "&s=" ++ s.1) = Except.ok (pg, 302))
    (hfetch : fetch (link ++ "&s=" ++ srv) = Except.ok (page, status))
    (hstatus : status ≠ 302)
    (hfind : findall page = m :: ms)
    (hmethod : method (m.dropRight 1) quality =
      Except.error ResolveErr.noQualityFound) :
    get_download_link fetch findall (pre ++ (srv, method) :: post)
        ep_name link quality =
      Except.error ResolveErr.noQualityFound := by
  rw [get_download_link_skip_302_servers fetch findall ep_name link quality pre
    ((srv, method) :: post) hpre]
  have hs : (status == 302) = false := by simpa using hstatus
  simp [get_download_link, hfetch, hs, hfind, hmethod]

theorem C2_quality_not_found_terminal_witness :
    get_download_link
        (fun u => if u = "L&s=nova" then Except.ok ("p", 302)
          else Except.ok ("p", 200))
        (fun _ => ["srcX"])
        ([("nova", fun _ _ => Except.ok "u")] ++
          ("rapidvideo", fun _ _ => Except.error ResolveErr.noQualityFound) ::
            [("mp4upload", fun _ _ => Except.ok "u")]) "ep" "L" "480p" =
      Except.error ResolveErr.noQualityFound :=
  C2_quality_not_found_terminal
    (fun u => if u = "L&s=nova" then Except.ok ("p", 302)
      else Except.ok ("p", 200))
    (fun _ => ["srcX"])
    [("nova", fun _ _ => Except.ok "u")]
    [("mp4upload", fun _ _ => Except.ok "u")]
    "rapidvideo" (fun _ _ => Except.error ResolveErr.noQualityFound)
    "ep" "L" "480p" "p" 200 "srcX" []
    (by intro s hs
        simp only [List.mem_singleton] at hs
        subst hs
        exact ⟨"p", rfl⟩)
    rfl (by decide) rfl rfl

/-- Claim C7: the orchestrator skips a server whose annotated watch-page
fetch returns HTTP 302 and moves on to the next server without treating it
as an error; and if every server in the registry returns a redirect,
resolution fails with the no-server-found signal. -/
theorem C7_redirect_skip_and_no_server
    (fetch : String → Except ResolveErr (String × Nat))
    (findall : String → List String) (ep_name link quality : String) :
    (∀ servers,
      (∀ s ∈ servers, ∃ pg, fetch (link ++ "&s=" ++ s.1) = Except.ok (pg, 302)) →
      get_download_link fetch findall servers ep_name link quality =
        Except.error ResolveErr.noServerFound) ∧
    (∀ (srv : String) (method : String → String → Except ResolveErr String)
      rest pg, fetch (link ++ "&s=" ++ srv) = Except.ok (pg, 302) →
      get_download_link fetch findall ((srv, method) :: rest) ep_name link quality =
        get_download_link fetch findall rest ep_name link quality) := by
  constructor
  · intro servers hall
    have h := get_download_link_skip_302_servers fetch findall ep_name link
      quality servers [] hall
    simpa using h
  · intro srv method rest pg hf
    simp [get_download_link, hf]

theorem C7_redirect_skip_and_no_server_witness :
    get_download_link (fun _ => Except.ok ("", 302)) (fun _ => [])
        [("nova", fun _ _ => Except.error ResolveErr.runtimeError)]
        "ep" "L" "480p" =
      Except.error ResolveErr.noServerFound :=
  (C7_redirect_skip_and_no_server (fun _ => Except.ok ("", 302)) (fun _ => [])
      "ep" "L" "480p").1
    [("nova", fun _ _ => Except.error ResolveErr.runtimeError)]
    (fun _ _ => ⟨"", rfl⟩)

/-- Claim C10: at the first server not skipped by a redirect, a page body
with no match for the embed-link pattern makes the orchestrator fail with
the uncaught `IndexError` (indexing `[0]` into the empty match list),
whatever servers remain in the registry; and when a match exists, the
chosen resolver is invoked on the captured text with its final character
removed, whose outcome becomes the orchestrator's result. -/
theorem C10_empty_match_index_error
    (fetch : String → Except ResolveErr (String × Nat))
    (findall : String → List String) (ep_name link quality : String) :
    (∀ pre (srv : String)
      (method : String → String → Except ResolveErr String) post page status,
      (∀ s ∈ pre, ∃ pg, fetch (link ++ "&s=" ++ s.1) = Except.ok (pg, 302)) →
      fetch (link ++ "&s=" ++ srv) = Except.ok (page, status) → status ≠ 302 →
      findall page = [] →
      get_download_link fetch findall (pre ++ (srv, method) :: post)
          ep_name link quality =
        Except.error ResolveErr.indexError) ∧
    (∀ pre (srv : String)
      (method : String → String → Except ResolveErr String) post page status
      m ms,
      (∀ s ∈ pre, ∃ pg, fetch (link ++ "&s=" ++ s.1) = Except.ok (pg, 302)) →
      fetch (link ++ "&s=" ++ srv) = Except.ok (page, status) → status ≠ 302 →
      findall page = m :: ms →
      get_download_link fetch findall (pre ++ (srv, method) :: post)
          ep_name link quality =
        Except.map (fun url => DownloadLink.mk ep_name url)
          (method (m.dropRight 1) quality)) := by
  constructor
  · intro pre srv method post page status hpre hfetch hstatus hfind
    rw [get_download_link_skip_302_servers fetch findall ep_name link quality
      pre ((srv, method) :: post) hpre]
    have hs : (status == 302) = false := by simpa using hstatus
    simp [get_download_link, hfetch, hs, hfind]
  · intro pre srv method post page status m ms hpre hfetch hstatus hfind
    rw [get_download_link_skip_302_servers fetch findall ep_name link quality
      pre ((srv, method) :: post) hpre]
    have hs : (status == 302) = false := by simpa using hstatus
    cases hm : method (m.dropRight 1) quality with
    | ok url => simp [get_download_link, hfetch, hs, hfind, hm, Except.map]
    | error e => simp [get_download_link, hfetch, hs, hfind, hm, Except.map]

theorem C10_empty_match_index_error_witness :
    get_download_link (fun _ => Except.ok ("", 200)) (fun _ => [])
        ([] ++ ("nova", fun _ _ => Except.error ResolveErr.runtimeError) ::
          [("rapidvideo", fun _ _ => Except.ok "u")]) "ep" "L" "480p" =
      Except.error ResolveErr.indexError :=
  (C10_empty_match_index_error (fun _ => Except.ok ("", 200)) (fun _ => [])
      "ep" "L" "480p").1
    [] "nova" (fun _ _ => Except.error ResolveErr.runtimeError)
    [("rapidvideo", fun _ _ => Except.ok "u")] "" 200
    (fun s hs => absurd hs (List.not_mem_nil s)) rfl (by decide) rfl

/-- Claim C1 exhibits a code bug: the executor's existence check looks at
`path/name.mp4` while the stream is written to `path/name`, so a download
whose target file `d/ep` already exists (content `OLD`) is not refused —
the executor overwrites it with the response body `NEW` and reports
success, where the claim (and the spec's create-or-fail contract) demands
a reported failure with the pre-existing file left unmodified. -/
theorem C1_overwrites_preexisting_target :
    download_episode ⟨200, some 3, ["NEW"], false⟩ "ep" "d" [0]
        [("d/ep", "OLD")] =
      some (true, [("d/ep", "NEW")], [0]) := rfl

/-- Claim C5: the download executor never raises — with a token available
it always yields a boolean result — and that boolean is `true` exactly
when the existence check passes, the response status is 200, the
`content-length` header is present, and the stream completes; the
existing-file conflict, a non-200 response, a missing header and a
streaming error are each converted into `false`. -/
theorem C5_download_returns_bool (resp : DLResp) (name path : String)
    (pool : List Nat) (fs : Fs) (h : pool ≠ []) :
    ∃ b fs' pool', download_episode resp name path pool fs = some (b, fs', pool') ∧
      (b = true ↔ ((fsGet fs (path ++ "/" ++ name ++ ".mp4")).isSome = false ∧
        resp.status = 200 ∧ resp.contentLength.isSome = true ∧
        resp.streamErr = false)) := by
  match pool, h with
  | t :: rest, _ =>
    rw [download_episode_eq]
    by_cases hex : (fsGet fs (path ++ "/" ++ name ++ ".mp4")).isSome = true
    · have hb : download_body resp name path fs = (.error .fileExists, fs) := by
        simp [download_body, hex]
      rw [hb]
      cases hrem : os_remove fs (path ++ "/" ++ name) with
      | ok fs'' => exact ⟨false, fs'', rest ++ [t], by simp, by simp [hex]⟩
      | error u => exact ⟨false, fs, rest ++ [t], by simp, by simp [hex]⟩
    · rw [Bool.not_eq_true] at hex
      by_cases hst : resp.status = 200
      · cases hcl : resp.contentLength with
        | none =>
          have hb : download_body resp name path fs = (.error .badHeader, fs) := by
            simp [download_body, hex, hst, hcl]
          rw [hb]
          cases hrem : os_remove fs (path ++ "/" ++ name) with
          | ok fs'' =>
            exact ⟨false, fs'', rest ++ [t], by simp, by simp [hcl]⟩
          | error u =>
            exact ⟨false, fs, rest ++ [t], by simp, by simp [hcl]⟩
        | some n =>
          by_cases hse : resp.streamErr = true
          · have hb : download_body resp name path fs =
                (.error .streamError,
                 fsSet fs (path ++ "/" ++ name) (String.join resp.chunks)) := by
              simp [download_body, hex, hst, hcl, hse]
            rw [hb]
            cases hrem : os_remove
                (fsSet fs (path ++ "/" ++ name) (String.join resp.chunks))
                (path ++ "/" ++ name) with
            | ok fs'' =>
              exact ⟨false, fs'', rest ++ [t], by simp, by simp [hse]⟩
            | error u =>
              exact ⟨false, fsSet fs (path ++ "/" ++ name) (String.join resp.chunks),
                rest ++ [t], by simp, by simp [hse]⟩
          · rw [Bool.not_eq_true] at hse
            have hb : download_body resp name path fs =
                (.ok (),
                 fsSet fs (path ++ "/" ++ name) (String.join resp.chunks)) := by
              simp [download_body, hex, hst, hcl, hse]
            rw [hb]
            exact ⟨true, fsSet fs (path ++ "/" ++ name) (String.join resp.chunks),
              rest ++ [t], by simp, by simp [hex, hst, hcl, hse]⟩
      · have hb : download_body resp name path fs = (.error .badStatus, fs) := by
          simp [download_body, hex, hst]
        rw [hb]
        cases hrem : os_remove fs (path ++ "/" ++ name) with
        | ok fs'' => exact ⟨false, fs'', rest ++ [t], by simp, by simp [hst]⟩
        | error u => exact ⟨false, fs, rest ++ [t], by simp, by simp [hst]⟩

theorem C5_download_returns_bool_witness :
    ∃ b fs' pool',
      download_episode ⟨200, some 1, ["A"], false⟩ "ep" "d" [0] [] =
        some (b, fs', pool') ∧
      (b = true ↔
        ((fsGet [] ("d" ++ "/" ++ "ep" ++ ".mp4")).isSome = false ∧
          (200 : Nat) = 200 ∧ (some 1 : Option Nat).isSome = true ∧
          false = false)) :=
  C5_download_returns_bool ⟨200, some 1, ["A"], false⟩ "ep" "d" [0] []
    (by decide)

/-- Claim C8: after any failed download, the write target `path/name` is
absent from disk — the cleanup removed whatever the failed attempt wrote,
and a `FileNotFoundError` during that removal is ignored — while the file
at `path/name.mp4`, the only file whose pre-existence makes the executor
refuse the download, is left exactly as it was before the attempt. -/
theorem C8_no_partial_file (resp : DLResp) (name path : String)
    (pool : List Nat) (fs fs' : Fs) (pool' : List Nat)
    (h : download_episode resp name path pool fs = some (false, fs', pool')) :
    fsGet fs' (path ++ "/" ++ name) = none ∧
    fsGet fs' (path ++ "/" ++ name ++ ".mp4") =
      fsGet fs (path ++ "/" ++ name ++ ".mp4") := by
  have hneq : path ++ "/" ++ name ++ ".mp4" ≠ path ++ "/" ++ name :=
    fun e => string_append_ne_self (path ++ "/" ++ name) ".mp4" (by decide) e.symm
  match pool with
  | [] => simp [download_episode, get_connection] at h
  | t :: rest =>
    rw [download_episode_eq] at h
    rcases hb : (download_body resp name path fs).1 with u | e
    case ok =>
      rw [hb] at h
      simp at h
    case error =>
      rw [hb] at h
      have hfs2 : (download_body resp name path fs).2 = fs ∨
          (download_body resp name path fs).2 =
            fsSet fs (path ++ "/" ++ name) (String.join resp.chunks) := by
        by_cases hex : (fsGet fs (path ++ "/" ++ name ++ ".mp4")).isSome = true
        · left; simp [download_body, hex]
        · rw [Bool.not_eq_true] at hex
          by_cases hst : resp.status = 200
          · cases hcl : resp.contentLength with
            | none => left; simp [download_body, hex, hst, hcl]
            | some n =>
              by_cases hse : resp.streamErr = true
              · right; simp [download_body, hex, hst, hcl, hse]
              · rw [Bool.not_eq_true] at hse
                exact absurd hb (by simp [download_body, hex, hst, hcl, hse])
          · left; simp [download_body, hex, hst]
      have hmp4 : fsGet (download_body resp name path fs).2
          (path ++ "/" ++ name ++ ".mp4") =
          fsGet fs (path ++ "/" ++ name ++ ".mp4") := by
        rcases hfs2 with h2 | h2
        · rw [h2]
        · rw [h2, fsGet_fsSet_ne _ _ _ _ hneq]
      cases hrem : os_remove (download_body resp name path fs).2
          (path ++ "/" ++ name) with
      | ok fs'' =>
        rw [hrem] at h
        simp only [Option.some.injEq, Prod.mk.injEq] at h
        obtain ⟨hfs', _⟩ := h.2
        subst hfs'
        have hfs'' : fs'' = fsDel (download_body resp name path fs).2
            (path ++ "/" ++ name) := by
          unfold os_remove at hrem
          split at hrem
          · exact (Except.ok.inj hrem).symm
          · simp at hrem
        rw [hfs'']
        exact ⟨fsGet_fsDel_self _ _,
          by rw [fsGet_fsDel_ne _ _ _ hneq]; exact hmp4⟩
      | error u =>
        rw [hrem] at h
        simp only [Option.some.injEq, Prod.mk.injEq] at h
        obtain ⟨hfs', _⟩ := h.2
        subst hfs'
        have habs : ¬ (fsGet (download_body resp name path fs).2
            (path ++ "/" ++ name)).isSome = true := by
          unfold os_remove at hrem
          split at hrem
          · simp at hrem
          · assumption
        refine ⟨?_, hmp4⟩
        cases ho : fsGet (download_body resp name path fs).2 (path ++ "/" ++ name) with
        | none => rfl
        | some v => rw [ho] at habs; simp at habs

theorem C8_no_partial_file_witness :
    fsGet [("d/ep.mp4", "X")] ("d" ++ "/" ++ "ep") = none ∧
    fsGet [("d/ep.mp4", "X")] ("d" ++ "/" ++ "ep" ++ ".mp4") =
      fsGet [("d/ep.mp4", "X")] ("d" ++ "/" ++ "ep" ++ ".mp4") :=
  C8_no_partial_file ⟨500, none, [], false⟩ "ep" "d" [0] [("d/ep.mp4", "X")]
    [("d/ep.mp4", "X")] [0] rfl

end Kissy
